import Mathlib

/-!
Verification of the typed result-verification and table-equivalence engine of
`e2e_test/iceberg/main.py` (the `verify_result`, `compare_sql`, `strtobool`,
`strtodate`, `strtots` functions), as a shallow embedding in Lean.

Modelling conventions:
* Python values appearing in result rows become the inductive type `Value`;
  Python numeric equality (where `int`, `bool`, `float` and `Decimal` compare
  numerically across types) is `pyEq`.
* Python `int` is `ℤ`; Python `Decimal` is an exact rational `ℚ`.
* Python `float` is a binary64 value, embedded as the exact rational value of
  the double; `toDouble` rounds an arbitrary rational to the nearest binary64
  value (round-half-even on the 53-bit significand, normal range only —
  subnormals and overflow do not arise for the magnitudes used here), and
  Python `round(x, 5)` on floats is the correctly-rounded `pyRoundFloat`.
* Python `datetime` is a wall-clock second count on the proleptic Gregorian
  timeline together with an optional UTC offset (`none` = naive);
  `datetime.astimezone(timezone.utc)` interprets naive values in the
  process-local timezone, which is outside the program text; the spec fixes
  the harness timezone as UTC ("interpreted as UTC"), so `localOffsetSeconds`
  is `0`.
* `str.splitlines` is modelled for `\n` line endings (the only ones that occur
  in the expected-data blobs), `str.split(",")` exactly, `int(...)`,
  `float(...)`, `Decimal(...)` and `date/datetime.fromisoformat` by
  executable parsers covering the grammar without surrounding whitespace,
  underscores, fractional seconds or exponents (none of which occur in the
  claims or the fixtures).
* `unittest` assertions raise on the first failure and abort `verify_result`,
  so the verifier is the short-circuiting `Except` computation `verify`.
-/

namespace Iceberg

/-! ## Strings: splitting, lowercasing -/

/-- Split a character list at every occurrence of `c` (Python `str.split(c)`:
always returns at least one, possibly empty, piece). -/
def splitChar (c : Char) : List Char → List (List Char)
  | [] => [[]]
  | x :: xs =>
    match splitChar c xs with
    | [] => [[x]]
    | h :: t => if x = c then [] :: h :: t else (x :: h) :: t

/-- Python `s.split(sep)` for a one-character separator. -/
def pySplit (sep : Char) (s : String) : List String :=
  (splitChar sep s.data).map (fun l => ⟨l⟩)

/-- Python `s.splitlines()` restricted to `\n` line endings: split at every
newline, with no empty trailing line when the text ends in `\n`, and no line
at all for the empty string. -/
def splitlines (s : String) : List String :=
  let ps := pySplit '\n' s
  if ps.getLast? = some "" then ps.dropLast else ps

/-- Python `s.split(",")`, applied to one expected-data line. -/
def fieldsOf (line : String) : List String :=
  pySplit ',' line

/-- Python `s.lower()` (ASCII; the letters that matter here are ASCII). -/
def lowerStr (s : String) : String :=
  ⟨s.data.map Char.toLower⟩

/-- `strtobool(v)` from the source: `v.lower() == "true"`. -/
def strtobool (v : String) : Bool :=
  lowerStr v == "true"

/-! ## Numeric literal parsing (`int(...)`, `float(...)`, `Decimal(...)`) -/

/-- Decimal digit-string value, empty string giving `0`. -/
def digitsValAux (acc : ℕ) : List Char → ℕ
  | [] => acc
  | c :: cs => digitsValAux (acc * 10 + (c.toNat - 48)) cs

/-- Decimal digit-string value, empty string giving `0`. -/
def digitsVal (cs : List Char) : ℕ :=
  digitsValAux 0 cs

/-- Parse a nonempty all-digit string as a natural number. -/
def parseNatDigits (cs : List Char) : Option ℕ :=
  if cs ≠ [] ∧ cs.all (·.isDigit) then some (digitsVal cs) else none

/-- Python `int(s)` on a plain (optionally signed) digit string. -/
def parseInt (s : String) : Option ℤ :=
  match s.data with
  | '-' :: rest => (parseNatDigits rest).map (fun n => -(n : ℤ))
  | '+' :: rest => (parseNatDigits rest).map (fun n => (n : ℤ))
  | cs => (parseNatDigits cs).map (fun n => (n : ℤ))

/-- An exact rational number as an unnormalized fraction with (intended
positive) natural denominator. All arithmetic used by the model is defined
on this representation directly (no gcd normalization), so every operation
reduces inside the kernel. Every `Frac` built by the model has a positive
denominator. -/
structure Frac where
  num : ℤ
  den : ℕ
deriving DecidableEq, Repr

/-- The fraction `n / 1`. -/
def Frac.ofInt (n : ℤ) : Frac := ⟨n, 1⟩

/-- Numeric equality of fractions (cross multiplication). -/
def Frac.eqb (a b : Frac) : Bool :=
  decide (a.num * (b.den : ℤ) = b.num * (a.den : ℤ))

/-- Numeric strict order of fractions (cross multiplication). -/
def Frac.ltb (a b : Frac) : Bool :=
  decide (a.num * (b.den : ℤ) < b.num * (a.den : ℤ))

/-- Numeric order of fractions (cross multiplication). -/
def Frac.leb (a b : Frac) : Bool :=
  decide (a.num * (b.den : ℤ) ≤ b.num * (a.den : ℤ))

/-- Negation of a fraction. -/
def Frac.neg (a : Frac) : Frac := ⟨-a.num, a.den⟩

/-- Absolute value of a fraction. -/
def Frac.abs (a : Frac) : Frac := ⟨|a.num|, a.den⟩

/-- Floor of a fraction (floor division of the numerator). -/
def Frac.floor (a : Frac) : ℤ := a.num.fdiv (a.den : ℤ)

/-- Unsigned decimal literal: digits, with an optional point and fraction
digits; at least one digit overall. Value as an exact fraction over a power
of ten. -/
def parseUnsignedRat (cs : List Char) : Option Frac :=
  let ip := cs.takeWhile (·.isDigit)
  let rest := cs.dropWhile (·.isDigit)
  match rest with
  | [] => if ip ≠ [] then some (Frac.ofInt (digitsVal ip)) else none
  | '.' :: fs =>
    if fs.all (·.isDigit) ∧ (ip ≠ [] ∨ fs ≠ []) then
      some ⟨(digitsVal ip * 10 ^ fs.length + digitsVal fs : ℕ), 10 ^ fs.length⟩
    else none
  | _ => none

/-- Python `float(s)` / `Decimal(s)` on a plain decimal literal, as the exact
rational value of the literal (binary64 rounding is applied separately by
`toDouble` where the source builds a `float`). -/
def parseRat (s : String) : Option Frac :=
  match s.data with
  | '-' :: rest => (parseUnsignedRat rest).map Frac.neg
  | '+' :: rest => parseUnsignedRat rest
  | cs => parseUnsignedRat cs

/-! ## Calendar arithmetic and ISO 8601 parsing -/

/-- Gregorian leap year. -/
def isLeap (y : ℕ) : Bool :=
  y % 4 == 0 && (y % 100 != 0 || y % 400 == 0)

/-- Days in a month of the proleptic Gregorian calendar. -/
def daysInMonth (y m : ℕ) : ℕ :=
  if m = 2 then (if isLeap y then 29 else 28)
  else if m = 4 ∨ m = 6 ∨ m = 9 ∨ m = 11 then 30
  else 31

/-- Days strictly before month `m` within year `y`. -/
def daysBeforeMonth (y m : ℕ) : ℕ :=
  (match m with
   | 1 => 0 | 2 => 31 | 3 => 59 | 4 => 90 | 5 => 120 | 6 => 151
   | 7 => 181 | 8 => 212 | 9 => 243 | 10 => 273 | 11 => 304 | _ => 334)
  + (if 2 < m ∧ isLeap y then 1 else 0)

/-- Day index of a proleptic-Gregorian civil date (year ≥ 1), with
0001-01-01 as day 0. -/
def daysFromCivil (y m d : ℕ) : ℕ :=
  (y - 1) * 365 + (y - 1) / 4 - (y - 1) / 100 + (y - 1) / 400
    + daysBeforeMonth y m + (d - 1)

/-- A Python `datetime.date`: year, month, day. -/
structure PyDate where
  year : ℕ
  month : ℕ
  day : ℕ
deriving DecidableEq, Repr

/-- `strtodate` / `date.fromisoformat`: exactly `YYYY-MM-DD`, range-checked. -/
def strtodate (s : String) : Option PyDate :=
  match s.data with
  | [a, b, c, d, '-', e, f, '-', g, h] =>
    if ([a, b, c, d, e, f, g, h]).all (·.isDigit) then
      let y := digitsVal [a, b, c, d]
      let mo := digitsVal [e, f]
      let da := digitsVal [g, h]
      if 1 ≤ y ∧ 1 ≤ mo ∧ mo ≤ 12 ∧ 1 ≤ da ∧ da ≤ daysInMonth y mo then
        some ⟨y, mo, da⟩
      else none
    else none
  | _ => none

/-- A Python `datetime.datetime`: wall-clock seconds on the proleptic
Gregorian timeline (from 0001-01-01 00:00:00) plus an optional UTC offset in
seconds (`none` = naive / no `tzinfo`). -/
structure PyDateTime where
  wall : ℤ
  off : Option ℤ
deriving DecidableEq, Repr

/-- UTC offset suffix `±HH:MM` of an ISO timestamp, in seconds. -/
def parseOffset (cs : List Char) : Option ℤ :=
  match cs with
  | [sgn, h1, h2, ':', m1, m2] =>
    if (sgn = '+' ∨ sgn = '-') ∧ ([h1, h2, m1, m2]).all (·.isDigit) then
      let hh := digitsVal [h1, h2]
      let mm := digitsVal [m1, m2]
      if hh ≤ 23 ∧ mm ≤ 59 then
        some ((if sgn = '-' then -1 else 1) * ((hh : ℤ) * 3600 + mm * 60))
      else none
    else none
  | _ => none

/-- Time-of-day part `HH:MM[:SS][±HH:MM]` of an ISO timestamp: hours,
minutes, seconds and optional offset. -/
def parseHMS (cs : List Char) : Option (ℕ × ℕ × ℕ × Option ℤ) :=
  match cs with
  | h1 :: h2 :: ':' :: m1 :: m2 :: rest =>
    if ([h1, h2, m1, m2]).all (·.isDigit) then
      let hh := digitsVal [h1, h2]
      let mm := digitsVal [m1, m2]
      if hh ≤ 23 ∧ mm ≤ 59 then
        match rest with
        | [] => some (hh, mm, 0, none)
        | ':' :: s1 :: s2 :: rest2 =>
          if ([s1, s2]).all (·.isDigit) ∧ digitsVal [s1, s2] ≤ 59 then
            match rest2 with
            | [] => some (hh, mm, digitsVal [s1, s2], none)
            | off => (parseOffset off).map (fun o => (hh, mm, digitsVal [s1, s2], some o))
          else none
        | off => (parseOffset off).map (fun o => (hh, mm, 0, some o))
      else none
    else none
  | _ => none

/-- `datetime.fromisoformat`: `YYYY-MM-DD`, optionally followed by a single
separator character and `HH:MM[:SS][±HH:MM]`. -/
def fromisoformat (s : String) : Option PyDateTime :=
  match s.data with
  | a :: b :: c :: d :: '-' :: e :: f :: '-' :: g :: h :: rest =>
    if ([a, b, c, d, e, f, g, h]).all (·.isDigit) then
      let y := digitsVal [a, b, c, d]
      let mo := digitsVal [e, f]
      let da := digitsVal [g, h]
      if 1 ≤ y ∧ 1 ≤ mo ∧ mo ≤ 12 ∧ 1 ≤ da ∧ da ≤ daysInMonth y mo then
        let base : ℤ := (daysFromCivil y mo da : ℤ) * 86400
        match rest with
        | [] => some ⟨base, none⟩
        | _sep :: timeChars =>
          (parseHMS timeChars).map (fun hms =>
            ⟨base + (hms.1 : ℤ) * 3600 + (hms.2.1 : ℤ) * 60 + (hms.2.2.1 : ℤ),
             hms.2.2.2⟩)
      else none
    else none
  | _ => none

/-- Modelled from the spec: the UTC offset of the process-local timezone used
by `datetime.astimezone` for naive values. The harness environment is not
part of the repository source; the spec fixes it as UTC (naive expected
literals are "interpreted as UTC"), hence offset `0`. -/
def localOffsetSeconds : ℤ := 0

/-- `dt.astimezone(timezone.utc)`: an aware value is converted to the same
instant at offset `0`; a naive value is first interpreted in the
process-local timezone. -/
def astimezoneUtc (dt : PyDateTime) : PyDateTime :=
  match dt.off with
  | some o => ⟨dt.wall - o, some 0⟩
  | none => ⟨dt.wall - localOffsetSeconds, some 0⟩

/-- `dt.replace(tzinfo=None)`. -/
def replaceTzNone (dt : PyDateTime) : PyDateTime :=
  ⟨dt.wall, none⟩

/-- `strtots` from the source:
`datetime.fromisoformat(v).astimezone(timezone.utc).replace(tzinfo=None)`. -/
def strtots (v : String) : Option PyDateTime :=
  (fromisoformat v).map (fun dt => replaceTzNone (astimezoneUtc dt))

/-- Python `datetime` equality: naive values compare by wall clock, aware
values compare as instants, and a naive value never equals an aware one. -/
def pyEqDT (a b : PyDateTime) : Bool :=
  match a.off, b.off with
  | none, none => decide (a.wall = b.wall)
  | some o1, some o2 => decide (a.wall - o1 = b.wall - o2)
  | _, _ => false

/-! ## Values and Python equality -/

/-- A scalar value in an actual result row, as decoded by the query engine:
Python `int`, `float` (the exact rational of its binary64 value), `bool`,
`date`, `datetime`, `str`, `Decimal` (exact rational), or `None`. -/
inductive Value where
  | int (n : ℤ)
  | real (q : Frac)
  | bool (b : Bool)
  | date (d : PyDate)
  | datetime (t : PyDateTime)
  | str (s : String)
  | dec (q : Frac)
  | null
deriving DecidableEq, Repr

/-- The exact rational of a value belonging to Python's numeric tower
(`bool ⊂ int`, `float`, `Decimal`), if any. -/
def toRatNum : Value → Option Frac
  | .int n => some (Frac.ofInt n)
  | .real q => some q
  | .bool b => some (Frac.ofInt (if b then 1 else 0))
  | .dec q => some q
  | _ => none

/-- Python `==` on the values that can occur here: numeric-tower values
compare numerically across types, dates, datetimes and strings compare
within their own type, `None == None`, everything else is unequal. -/
def pyEq (a b : Value) : Bool :=
  match toRatNum a, toRatNum b with
  | some x, some y => x.eqb y
  | _, _ =>
    match a, b with
    | .date d1, .date d2 => decide (d1 = d2)
    | .datetime t1, .datetime t2 => pyEqDT t1 t2
    | .str s1, .str s2 => s1 == s2
    | .null, .null => true
    | _, _ => false

/-! ## binary64 floats and `round(x, 5)` -/

/-- Round a fraction (with positive denominator) to the nearest integer,
ties to even. -/
def roundHalfEvenInt (q : Frac) : ℤ :=
  let f := q.floor
  let rnum := q.num - f * (q.den : ℤ)
  if 2 * rnum < (q.den : ℤ) then f
  else if (q.den : ℤ) < 2 * rnum then f + 1
  else if f % 2 = 0 then f else f + 1

/-- `a * 2 ^ z` for an integer exponent. -/
def mulPow2 (a : Frac) (z : ℤ) : Frac :=
  if 0 ≤ z then ⟨a.num * 2 ^ z.toNat, a.den⟩ else ⟨a.num, a.den * 2 ^ (-z).toNat⟩

/-- Fuel-bounded base-2 logarithm on naturals (the fuel, fixed at 2000 by
`natLog2`, strictly exceeds any bit length reachable from binary64 values
and the literals occurring here; structural recursion keeps it
kernel-reducible, unlike the well-founded recursion of `Nat.log2`). -/
def log2fuel : ℕ → ℕ → ℕ
  | 0, _ => 0
  | fuel + 1, n => if n ≤ 1 then 0 else log2fuel fuel (n / 2) + 1

/-- Base-2 logarithm: the greatest `k` with `2 ^ k ≤ n` (0 for `n = 0`). -/
def natLog2 (n : ℕ) : ℕ := log2fuel 2000 n

/-- For `a > 0`, the exponent `k` with `2 ^ k ≤ a < 2 ^ (k + 1)`. -/
def ilog2q (a : Frac) : ℤ :=
  let g : ℤ := (natLog2 a.num.natAbs : ℤ) - (natLog2 a.den : ℤ)
  if a.ltb (mulPow2 (Frac.ofInt 1) g) then g - 1
  else if (mulPow2 (Frac.ofInt 1) (g + 1)).leb a then g + 1
  else g

/-- The exact rational value of the binary64 double nearest to `q`
(round-half-even on a 53-bit significand; normal range only, which covers
every magnitude arising here). -/
def toDouble (q : Frac) : Frac :=
  if q.num = 0 then Frac.ofInt 0
  else
    let a := q.abs
    let e := ilog2q a - 52
    let m := roundHalfEvenInt (mulPow2 a (-e))
    let r := mulPow2 (Frac.ofInt m) e
    if q.num < 0 then r.neg else r

/-- Python `round(x, 5)` on a float `x` (given as the exact rational of its
binary64 value): correctly rounded — the double nearest to the half-even
rounding of `x` at 5 fractional digits. -/
def pyRoundFloat (x : Frac) : Frac :=
  toDouble ⟨roundHalfEvenInt ⟨x.num * 100000, x.den⟩, 100000⟩

/-- Python `round(d, 5)` on a `Decimal`: exact half-even rounding at 5
fractional digits. -/
def decRound5 (q : Frac) : Frac :=
  ⟨roundHalfEvenInt ⟨q.num * 100000, q.den⟩, 100000⟩

/-- Python `round(v, 5)` on an actual value, as its exact rational result:
floats are correctly rounded through binary64, ints and bools are returned
unchanged, decimals are rounded exactly; any other value raises `TypeError`
(`none`). -/
def roundActual5 : Value → Option Frac
  | .real q => some (pyRoundFloat q)
  | .int n => some (Frac.ofInt n)
  | .bool b => some (Frac.ofInt (if b then 1 else 0))
  | .dec q => some (decRound5 q)
  | _ => none

/-! ## The typed row verifier (`verify_result`) -/

/-- How a single value comparison fails: a failed `assertEqual` (carrying the
two compared values, expected then actual), a failed `assertTrue(x is None)`,
the `tc.fail` on an unsupported tag, a `ValueError` parsing an expected
literal, a `TypeError`/`AttributeError` applying `round`/`astimezone` to an
unsuitable actual value, or an `IndexError` on a too-short row or line. -/
inductive ValErr where
  | valueMismatch (expected actual : Value)
  | expectedNull (actual : Value)
  | unsupportedType (tag : String)
  | parseError (lit : String)
  | typeError (actual : Value)
  | indexError
deriving DecidableEq, Repr

/-- Outcome of a whole `verify_result` call: the initial
`assertEqual(len(df), len(rows))` failure, or the first per-value failure
with its row and column index. -/
inductive VerifyError where
  | rowCountMismatch (actualRows expectedRows : ℕ)
  | atValue (row col : ℕ) (e : ValErr)
deriving DecidableEq, Repr

/-- `row1[idx]`: the actual value at a column, `IndexError` if out of range. -/
def getVal (row1 : List Value) (idx : ℕ) : Except ValErr Value :=
  match row1[idx]? with
  | some v => .ok v
  | none => .error .indexError

/-- `row2[idx]`: the expected literal at a column, `IndexError` if out of
range. -/
def getLit (fields : List String) (idx : ℕ) : Except ValErr String :=
  match fields[idx]? with
  | some v => .ok v
  | none => .error .indexError

/-- `tc.assertEqual(actual, expected)` under Python equality. -/
def assertPyEq (expected actual : Value) : Except ValErr Unit :=
  if pyEq actual expected then .ok () else .error (.valueMismatch expected actual)

/-- One arm of the `if/elif` dispatch in `verify_result`: compare the value
at column `idx` of actual row `row1` against the literal at column `idx` of
the split expected line `fields`, under the rules of type tag `ty`.
Each arm evaluates in the source's order (actual access, transformation,
literal access, parse, comparison). -/
def checkValue (ty : String) (row1 : List Value) (fields : List String)
    (idx : ℕ) : Except ValErr Unit :=
  if ty = "int" ∨ ty = "long" then
    match getVal row1 idx with
    | .error e => .error e
    | .ok a =>
      match getLit fields idx with
      | .error e => .error e
      | .ok lit =>
        match parseInt lit with
        | none => .error (.parseError lit)
        | some n => assertPyEq (.int n) a
  else if ty = "float" ∨ ty = "double" then
    match getVal row1 idx with
    | .error e => .error e
    | .ok a =>
      match roundActual5 a with
      | none => .error (.typeError a)
      | some ra =>
        match getLit fields idx with
        | .error e => .error e
        | .ok lit =>
          match parseRat lit with
          | none => .error (.parseError lit)
          | some qe =>
            let re := pyRoundFloat (toDouble qe)
            if ra.eqb re then .ok ()
            else .error (.valueMismatch (.real re) (.real ra))
  else if ty = "boolean" then
    match getVal row1 idx with
    | .error e => .error e
    | .ok a =>
      match getLit fields idx with
      | .error e => .error e
      | .ok lit => assertPyEq (.bool (strtobool lit)) a
  else if ty = "date" then
    match getVal row1 idx with
    | .error e => .error e
    | .ok a =>
      match getLit fields idx with
      | .error e => .error e
      | .ok lit =>
        match strtodate lit with
        | none => .error (.parseError lit)
        | some d => assertPyEq (.date d) a
  else if ty = "timestamp" then
    match getVal row1 idx with
    | .error e => .error e
    | .ok a =>
      match a with
      | .datetime dt =>
        let la := replaceTzNone (astimezoneUtc dt)
        match getLit fields idx with
        | .error e => .error e
        | .ok lit =>
          match strtots lit with
          | none => .error (.parseError lit)
          | some e =>
            if pyEqDT la e then .ok ()
            else .error (.valueMismatch (.datetime e) (.datetime la))
      | _ => .error (.typeError a)
  else if ty = "timestamp_ntz" then
    match getVal row1 idx with
    | .error e => .error e
    | .ok a =>
      match getLit fields idx with
      | .error e => .error e
      | .ok lit =>
        match fromisoformat lit with
        | none => .error (.parseError lit)
        | some e => assertPyEq (.datetime e) a
  else if ty = "string" then
    match getVal row1 idx with
    | .error e => .error e
    | .ok a =>
      match getLit fields idx with
      | .error e => .error e
      | .ok lit => assertPyEq (.str lit) a
  else if ty = "decimal" then
    match getLit fields idx with
    | .error e => .error e
    | .ok lit =>
      if lit = "none" then
        match getVal row1 idx with
        | .error e => .error e
        | .ok a => if a = Value.null then .ok () else .error (.expectedNull a)
      else
        match getVal row1 idx with
        | .error e => .error e
        | .ok a =>
          match parseRat lit with
          | none => .error (.parseError lit)
          | some q => assertPyEq (.dec q) a
  else .error (.unsupportedType ty)

/-- The inner `for idx, ty in enumerate(verify_schema)` loop over one row
pair, starting at column `idx`: stops at the first failing column, reporting
its absolute column index. -/
def checkCols (row1 : List Value) (fields : List String) :
    List String → ℕ → Except (ℕ × ValErr) Unit
  | [], _ => .ok ()
  | ty :: tys, idx =>
    match checkValue ty row1 fields idx with
    | .error e => .error (idx, e)
    | .ok _ => checkCols row1 fields tys (idx + 1)

/-- The outer `for row1, row2 in zip(df, rows)` loop, starting at row index
`i0`: each expected line is comma-split, and the first failing row aborts
the whole call. -/
def checkRows : List (List Value) → List String → List String → ℕ →
    Except VerifyError Unit
  | [], _, _, _ => .ok ()
  | _, [], _, _ => .ok ()
  | row1 :: df, line :: lines, schema, i =>
    match checkCols row1 (fieldsOf line) schema 0 with
    | .error (j, e) => .error (.atValue i j e)
    | .ok _ => checkRows df lines schema (i + 1)

/-- The pure core of `verify_result`: split the expected text into lines,
require equal row counts, then compare row by row and value by value,
stopping at the first failure. -/
def verify (df : List (List Value)) (schema : List String) (text : String) :
    Except VerifyError Unit :=
  let lines := splitlines text
  if df.length = lines.length then checkRows df lines schema 0
  else .error (.rowCountMismatch df.length lines.length)

/-- The single-cell check at column `j` of one row pair, `ok` when `j` is
outside the schema. -/
def colCheckAt (row1 : List Value) (fields : List String)
    (schema : List String) (j : ℕ) : Except ValErr Unit :=
  match schema[j]? with
  | some ty => checkValue ty row1 fields j
  | none => .ok ()

/-- The single-cell check at row `i`, column `j` of a whole verification
call, `ok` when `i` or `j` is out of range. -/
def cellCheck (df : List (List Value)) (lines : List String)
    (schema : List String) (i j : ℕ) : Except ValErr Unit :=
  match df[i]?, lines[i]? with
  | some r, some l => colCheckAt r (fieldsOf l) schema j
  | _, _ => .ok ()

/-! ## The table equivalence checker (`compare_sql`) -/

/-- Spark's `df1.exceptAll(df2)`: the multiset difference of the two result
sets (duplicates counted, order irrelevant). -/
def exceptAll {α : Type} [DecidableEq α] (a b : List α) : Multiset α :=
  (a : Multiset α) - (b : Multiset α)

/-- The pure verdict of `compare_sql` on two already-collected result sets:
both `assertEqual(len(diff), 0)` checks pass. -/
def compareSql {α : Type} [DecidableEq α] (a b : List α) : Bool :=
  decide (Multiset.card (exceptAll a b) = 0) &&
    decide (Multiset.card (exceptAll b a) = 0)

end Iceberg

deriving instance DecidableEq for Except

namespace Iceberg

/-! ## Theorems -/

/-- C8: for schema `["int", "string"]` and expected text `"1,foo\n2,bar"`,
actual rows `[(1, "foo"), (2, "bar")]` verify successfully, and actual rows
`[(1, "foo"), (3, "bar")]` fail with a value mismatch at row index 1, column
index 0, expected `2`, actual `3`. -/
theorem end_to_end_int_string :
    verify [[Value.int 1, Value.str "foo"], [Value.int 2, Value.str "bar"]]
        ["int", "string"] "1,foo\n2,bar" = .ok () ∧
    verify [[Value.int 1, Value.str "foo"], [Value.int 3, Value.str "bar"]]
        ["int", "string"] "1,foo\n2,bar" =
      .error (.atValue 1 0 (.valueMismatch (Value.int 2) (Value.int 3))) := by
  decide

/-- C1: a row-count mismatch between the expected lines and the actual rows
fails with the row-count error before any per-value comparison (for every
schema and every row contents), and with empty expected text (zero lines)
verification succeeds exactly when the actual result set is empty. -/
theorem verify_rowcount_checked_first :
    (∀ (df : List (List Value)) (schema : List String) (text : String),
        df.length ≠ (splitlines text).length →
        verify df schema text =
          .error (.rowCountMismatch df.length (splitlines text).length)) ∧
    (∀ (df : List (List Value)) (schema : List String),
        verify df schema "" = .ok () ↔ df = []) := by
  constructor
  · intro df schema text h
    unfold verify
    exact if_neg h
  · intro df schema
    cases df with
    | nil => exact ⟨fun _ => rfl, fun _ => rfl⟩
    | cons r df =>
      have hv : verify (r :: df) schema "" =
          .error (.rowCountMismatch (df.length + 1) 0) := rfl
      rw [hv]
      simp

/-- Witness for C1 at concrete inputs. -/
theorem verify_rowcount_checked_first_witness :
    verify [[Value.int 1]] [] "" = .error (.rowCountMismatch 1 0) ∧
    verify [] [] "" = .ok () :=
  ⟨verify_rowcount_checked_first.1 [[Value.int 1]] [] "" (by decide),
   (verify_rowcount_checked_first.2 [] []).mpr rfl⟩

/-- C7 counterexample: the claim says a tag outside the ten-tag vocabulary
fails at setup before any row comparison, including with zero rows; but the
source checks the tag inside the per-value loop, so with zero rows a bogus
tag verifies successfully. -/
theorem unsupported_tag_zero_rows_passes :
    verify [] ["bogus"] "" = .ok () := rfl

/-- C7 amended: a type tag outside the ten-tag vocabulary fails with an
UnsupportedType error naming the tag whenever a value of that column is
compared (whatever the actual value or literal, including out-of-range
indices); the failure happens per value, not at setup, so with zero rows it
is never raised. -/
theorem unsupported_tag_per_value :
    (∀ ty : String,
        ty ∉ (["int", "long", "float", "double", "boolean", "date",
               "timestamp", "timestamp_ntz", "string", "decimal"] : List String) →
        ∀ (row1 : List Value) (fields : List String) (idx : ℕ),
          checkValue ty row1 fields idx = .error (.unsupportedType ty)) ∧
    verify [[Value.int 1]] ["bogus"] "1" =
      .error (.atValue 0 0 (.unsupportedType "bogus")) := by
  constructor
  · intro ty h row1 fields idx
    simp only [List.mem_cons, List.not_mem_nil, or_false, not_or] at h
    obtain ⟨h1, h2, h3, h4, h5, h6, h7, h8, h9, h10⟩ := h
    simp [checkValue, h1, h2, h3, h4, h5, h6, h7, h8, h9, h10]
  · decide

/-- Witness for C7's amended theorem at a concrete unsupported tag. -/
theorem unsupported_tag_per_value_witness :
    checkValue "bogus" [] [] 0 = .error (.unsupportedType "bogus") :=
  unsupported_tag_per_value.1 "bogus" (by decide) [] [] 0

/-- C2: `compare_sql` succeeds iff both multiset differences `A − B` and
`B − A` are empty; equivalently iff the two result sets are equal as
multisets (duplicates counted, order irrelevant); and `[x, x]` against `[x]`
fails. -/
theorem compare_sql_multiset {α : Type} [DecidableEq α] (A B : List α) (x : α) :
    (compareSql A B = true ↔ exceptAll A B = 0 ∧ exceptAll B A = 0) ∧
    (compareSql A B = true ↔ (A : Multiset α) = (B : Multiset α)) ∧
    compareSql [x, x] [x] = false := by
  have hiff : ∀ C D : List α,
      compareSql C D = true ↔ exceptAll C D = 0 ∧ exceptAll D C = 0 := by
    intro C D
    simp [compareSql, Multiset.card_eq_zero]
  refine ⟨hiff A B, ?_, ?_⟩
  · rw [hiff A B]
    unfold exceptAll
    rw [tsub_eq_zero_iff_le, tsub_eq_zero_iff_le]
    exact ⟨fun h => le_antisymm h.1 h.2, fun h => ⟨le_of_eq h, le_of_eq h.symm⟩⟩
  · have hx : exceptAll [x, x] [x] = {x} := by
      show (x ::ₘ x ::ₘ 0) - (x ::ₘ 0) = {x}
      rw [Multiset.sub_cons, Multiset.erase_cons_head, Multiset.sub_zero]
      rfl
    simp [compareSql, hx]

/-- Witness for C2 at a concrete type and concrete lists. -/
theorem compare_sql_multiset_witness :
    compareSql ([7, 7] : List ℤ) [7] = false :=
  (compare_sql_multiset ([] : List ℤ) [] 7).2.2

/-- C3: the pass/fail verdict of `compare_sql` is symmetric in its two
result sets. -/
theorem compare_sql_symmetric {α : Type} [DecidableEq α] (A B : List α) :
    compareSql A B = compareSql B A := by
  unfold compareSql
  exact Bool.and_comm _ _

/-- Witness for C3 at concrete lists. -/
theorem compare_sql_symmetric_witness :
    compareSql ([1] : List ℤ) [2] = compareSql ([2] : List ℤ) [1] :=
  compare_sql_symmetric [1] [2]

/-- C6: for a `decimal` column, the case-sensitive literal `"none"` passes
iff the actual value is Python `None`; any other literal must equal the
actual value under exact numeric (Decimal) equality. Concretely: actual
`Decimal("10.00")` (the exact rational `10`) equals literal `"10.0"`, actual
`None` passes against `"none"`, and actual `0` fails against `"none"`. -/
theorem decimal_rules :
    (∀ (row1 : List Value) (fields : List String) (j : ℕ) (a : Value)
        (lit : String),
        row1[j]? = some a → fields[j]? = some lit →
        ((lit = "none" →
            (checkValue "decimal" row1 fields j = .ok () ↔ a = Value.null)) ∧
         (lit ≠ "none" → ∀ q : Frac, parseRat lit = some q →
            (checkValue "decimal" row1 fields j = .ok () ↔
              pyEq a (Value.dec q) = true)))) ∧
    checkValue "decimal" [Value.dec (Frac.ofInt 10)] ["10.0"] 0 = .ok () ∧
    checkValue "decimal" [Value.null] ["none"] 0 = .ok () ∧
    checkValue "decimal" [Value.int 0] ["none"] 0 =
      .error (.expectedNull (Value.int 0)) := by
  refine ⟨?_, by decide, by decide, by decide⟩
  intro row1 fields j a lit ha hl
  constructor
  · intro hnone
    subst hnone
    by_cases hnull : a = Value.null
    · simp [checkValue, getVal, getLit, ha, hl, hnull]
    · simp [checkValue, getVal, getLit, ha, hl, hnull]
  · intro hne q hq
    by_cases heq : pyEq a (Value.dec q) = true
    · simp [checkValue, getVal, getLit, ha, hl, hne, hq, assertPyEq, heq]
    · simp [checkValue, getVal, getLit, ha, hl, hne, hq, assertPyEq, heq]

/-- Witness for C6 at concrete inputs. -/
theorem decimal_rules_witness :
    checkValue "decimal" [Value.dec (Frac.ofInt 5)] ["5"] 0 = .ok () :=
  ((decimal_rules.1 [Value.dec (Frac.ofInt 5)] ["5"] 0
      (Value.dec (Frac.ofInt 5)) "5" rfl rfl).2
    (by decide) (Frac.ofInt 5) (by decide)).mpr (by decide)

/-- C9: boolean literal parsing is total and never raises: `strtobool` is
exactly a case-insensitive match against `"true"`, the boolean column check
succeeds iff the actual value Python-equals that boolean (so any literal
other than case variants of `"true"` is silently compared as `False`), and
the boolean branch can never produce a parse error. -/
theorem boolean_parse_total :
    (∀ lit : String, strtobool lit = (lowerStr lit == "true")) ∧
    (∀ (row1 : List Value) (fields : List String) (j : ℕ) (a : Value)
        (lit : String),
        row1[j]? = some a → fields[j]? = some lit →
        (checkValue "boolean" row1 fields j = .ok () ↔
          pyEq a (Value.bool (strtobool lit)) = true)) ∧
    (∀ (row1 : List Value) (fields : List String) (j : ℕ) (s : String),
        checkValue "boolean" row1 fields j ≠ .error (.parseError s)) ∧
    strtobool "yes" = false ∧ strtobool "0" = false ∧
    strtobool "tru" = false ∧ strtobool "TRUE" = true ∧
    checkValue "boolean" [Value.bool false] ["yes"] 0 = .ok () := by
  refine ⟨fun _ => rfl, ?_, ?_, by decide, by decide, by decide, by decide,
    by decide⟩
  · intro row1 fields j a lit ha hl
    by_cases heq : pyEq a (Value.bool (strtobool lit)) = true
    · simp [checkValue, getVal, getLit, ha, hl, assertPyEq, heq]
    · simp [checkValue, getVal, getLit, ha, hl, assertPyEq, heq]
  · intro row1 fields j s
    cases ha : row1[j]? with
    | none => simp [checkValue, getVal, ha]
    | some a =>
      cases hl : fields[j]? with
      | none => simp [checkValue, getVal, getLit, ha, hl]
      | some lit =>
        by_cases heq : pyEq a (Value.bool (strtobool lit)) = true
        · simp [checkValue, getVal, getLit, ha, hl, assertPyEq, heq]
        · simp [checkValue, getVal, getLit, ha, hl, assertPyEq, heq]

/-- Witness for C9 at concrete inputs. -/
theorem boolean_parse_total_witness :
    checkValue "boolean" [Value.bool true] ["TRUE"] 0 = .ok () :=
  (boolean_parse_total.2.1 [Value.bool true] ["TRUE"] 0 (Value.bool true)
    "TRUE" rfl rfl).mpr (by decide)

/-- C5 counterexample: the claim's example is false on the code. The actual
float `1.000004999` rounds to `1.0` at 5 digits, but the expected literal
`"1.000005"` becomes the binary64 value `4503622145368633 / 2^52`, which
lies strictly above the tie `1.000005`, so `round(float("1.000005"), 5)` is
`1.00001`, not `1.0`; the two are not treated as equal. -/
theorem float_round_example_fails :
    checkValue "float" [Value.real (toDouble ⟨1000004999, 1000000000⟩)]
      ["1.000005"] 0 ≠ .ok () := by decide

/-- C5 amended: for a `float` or `double` column, an actual float and an
expected literal are treated as equal exactly when Python's correctly
rounded `round(·, 5)` of the actual binary64 value and of the binary64
value of the parsed literal coincide. This is tolerant (e.g. actual
`1.000001` equals literal `"1.0000014"`), but the claim's example pair is
not equal, because rounding happens on binary64 values, not on exact
decimals. -/
theorem float_round_binary64 :
    (∀ (row1 : List Value) (fields : List String) (j : ℕ) (q : Frac)
        (lit : String) (qe : Frac),
        row1[j]? = some (Value.real q) → fields[j]? = some lit →
        parseRat lit = some qe →
        ((checkValue "float" row1 fields j = .ok () ↔
            (pyRoundFloat q).eqb (pyRoundFloat (toDouble qe)) = true) ∧
         (checkValue "double" row1 fields j = .ok () ↔
            (pyRoundFloat q).eqb (pyRoundFloat (toDouble qe)) = true))) ∧
    checkValue "float" [Value.real (toDouble ⟨1000001, 1000000⟩)]
      ["1.0000014"] 0 = .ok () := by
  refine ⟨?_, by decide⟩
  intro row1 fields j q lit qe ha hl hq
  by_cases heq : (pyRoundFloat q).eqb (pyRoundFloat (toDouble qe)) = true
  · constructor <;>
      simp [checkValue, getVal, getLit, ha, hl, roundActual5, hq, heq]
  · constructor <;>
      simp [checkValue, getVal, getLit, ha, hl, roundActual5, hq, heq]

/-- Witness for C5's amended theorem at concrete inputs. -/
theorem float_round_binary64_witness :
    checkValue "float" [Value.real (Frac.ofInt 1)] ["1.0"] 0 = .ok () :=
  ((float_round_binary64.1 [Value.real (Frac.ofInt 1)] ["1.0"] 0
      (Frac.ofInt 1) "1.0" ⟨10, 10⟩ rfl rfl (by decide)).1).mpr (by decide)

/-- C4: for a `timestamp` column the expected literal is parsed via
`strtots` — interpreted as UTC (the offset, or the UTC environment zone for
naive literals) and stripped of its zone — and the actual datetime is
normalized to UTC wall clock with its zone stripped before exact
comparison; for `timestamp_ntz` no zone conversion happens on either side.
The same wall-clock literal therefore obeys distinct rules under the two
tags: an aware actual at +01:00 denoting the same instant passes under
`timestamp` and fails under `timestamp_ntz`. -/
theorem timestamp_vs_ntz_rules :
    (∀ (lit : String) (e : PyDateTime), fromisoformat lit = some e →
        strtots lit = some ⟨e.wall - e.off.getD localOffsetSeconds, none⟩) ∧
    (∀ (row1 : List Value) (fields : List String) (j : ℕ) (dt : PyDateTime)
        (lit : String) (e : PyDateTime),
        row1[j]? = some (Value.datetime dt) → fields[j]? = some lit →
        strtots lit = some e →
        (checkValue "timestamp" row1 fields j = .ok () ↔
          dt.wall - dt.off.getD localOffsetSeconds = e.wall)) ∧
    (∀ (row1 : List Value) (fields : List String) (j : ℕ) (a : Value)
        (lit : String) (e : PyDateTime),
        row1[j]? = some a → fields[j]? = some lit →
        fromisoformat lit = some e →
        (checkValue "timestamp_ntz" row1 fields j = .ok () ↔
          pyEq a (Value.datetime e) = true)) ∧
    (∀ a : PyDateTime, fromisoformat "2024-06-01 13:00:00+01:00" = some a →
        checkValue "timestamp" [Value.datetime a]
          ["2024-06-01 12:00:00"] 0 = .ok () ∧
        checkValue "timestamp_ntz" [Value.datetime a]
          ["2024-06-01 12:00:00"] 0 ≠ .ok ()) := by
  refine ⟨?_, ?_, ?_, ?_⟩
  · intro lit e he
    cases hoff : e.off <;>
      simp [strtots, he, astimezoneUtc, replaceTzNone, hoff]
  · intro row1 fields j dt lit e ha hl hs
    obtain ⟨e0, he0, rfl⟩ : ∃ e0, fromisoformat lit = some e0 ∧
        replaceTzNone (astimezoneUtc e0) = e := by
      simpa [strtots] using hs
    by_cases hw : dt.wall - dt.off.getD localOffsetSeconds =
        (replaceTzNone (astimezoneUtc e0)).wall
    · cases hdt : dt.off <;>
        simp_all [checkValue, getVal, getLit, ha, hl, strtots, he0,
          replaceTzNone, astimezoneUtc, pyEqDT]
    · cases hdt : dt.off <;>
        simp_all [checkValue, getVal, getLit, ha, hl, strtots, he0,
          replaceTzNone, astimezoneUtc, pyEqDT]
  · intro row1 fields j a lit e ha hl he
    by_cases heq : pyEq a (Value.datetime e) = true
    · simp [checkValue, getVal, getLit, ha, hl, he, assertPyEq, heq]
    · simp [checkValue, getVal, getLit, ha, hl, he, assertPyEq, heq]
  · intro a ha
    have ha2 : a = (⟨63852843600, some 3600⟩ : PyDateTime) := by
      rw [show fromisoformat "2024-06-01 13:00:00+01:00" =
          some (⟨63852843600, some 3600⟩ : PyDateTime) by decide] at ha
      exact (Option.some.inj ha).symm
    subst ha2
    exact ⟨by decide, by decide⟩

/-- Witness for C4 at concrete inputs. -/
theorem timestamp_vs_ntz_rules_witness :
    checkValue "timestamp" [Value.datetime ⟨63852843600, some 3600⟩]
      ["2024-06-01 12:00:00"] 0 = .ok () :=
  (timestamp_vs_ntz_rules.2.2.2 ⟨63852843600, some 3600⟩ (by decide)).1

/-- The column loop succeeds iff every column of the schema checks out. -/
theorem checkCols_ok_iff (row1 : List Value) (fields : List String) :
    ∀ (tys : List String) (idx : ℕ),
      checkCols row1 fields tys idx = .ok () ↔
        ∀ k ty, tys[k]? = some ty →
          checkValue ty row1 fields (idx + k) = .ok () := by
  intro tys
  induction tys with
  | nil => intro idx; simp [checkCols]
  | cons ty tys ih =>
    intro idx
    cases h : checkValue ty row1 fields idx with
    | error e =>
      simp only [checkCols, h]
      constructor
      · intro hfalse; exact absurd hfalse (by simp)
      · intro hall
        have h0 := hall 0 ty (by simp)
        rw [Nat.add_zero, h] at h0
        exact absurd h0 (by simp)
    | ok u =>
      cases u
      simp only [checkCols, h]
      rw [ih (idx + 1)]
      constructor
      · intro hall k ty2 hk
        cases k with
        | zero =>
          obtain rfl : ty = ty2 := by simpa using hk
          rw [Nat.add_zero]; exact h
        | succ k =>
          have := hall k ty2 (by simpa using hk)
          rw [show idx + (k + 1) = idx + 1 + k from by omega]
          exact this
      · intro hall k ty2 hk
        have := hall (k + 1) ty2 (by simpa using hk)
        rw [show idx + 1 + k = idx + (k + 1) from by omega]
        exact this

/-- The column loop fails with `(j, e)` iff column `j` is the first failing
column and fails with `e`. -/
theorem checkCols_err_iff (row1 : List Value) (fields : List String) :
    ∀ (tys : List String) (idx j : ℕ) (e : ValErr),
      checkCols row1 fields tys idx = .error (j, e) ↔
        ∃ k ty, tys[k]? = some ty ∧ j = idx + k ∧
          checkValue ty row1 fields (idx + k) = .error e ∧
          ∀ k2 ty2, k2 < k → tys[k2]? = some ty2 →
            checkValue ty2 row1 fields (idx + k2) = .ok () := by
  intro tys
  induction tys with
  | nil => intro idx j e; simp [checkCols]
  | cons ty tys ih =>
    intro idx j e
    cases h : checkValue ty row1 fields idx with
    | error e0 =>
      simp only [checkCols, h]
      constructor
      · intro heq
        simp only [Except.error.injEq, Prod.mk.injEq] at heq
        obtain ⟨hj, he⟩ := heq
        refine ⟨0, ty, by simp, by omega, ?_, ?_⟩
        · rw [Nat.add_zero, h, he]
        · intro k2 ty2 hlt _; exact absurd hlt (Nat.not_lt_zero k2)
      · rintro ⟨k, ty2, hk, hj, herr, hall⟩
        cases k with
        | zero =>
          obtain rfl : ty = ty2 := by simpa using hk
          rw [Nat.add_zero, h] at herr
          simp only [Except.error.injEq] at herr
          subst hj herr
          rfl
        | succ k =>
          have h0 := hall 0 ty (Nat.succ_pos k) (by simp)
          rw [Nat.add_zero, h] at h0
          exact absurd h0 (by simp)
    | ok u =>
      cases u
      simp only [checkCols, h]
      rw [ih (idx + 1) j e]
      constructor
      · rintro ⟨k, ty2, hk, hj, herr, hall⟩
        refine ⟨k + 1, ty2, by simpa using hk, by omega, ?_, ?_⟩
        · rw [show idx + (k + 1) = idx + 1 + k from by omega]; exact herr
        · intro k2 ty3 hlt hk2
          cases k2 with
          | zero =>
            obtain rfl : ty = ty3 := by simpa using hk2
            rw [Nat.add_zero]; exact h
          | succ k2 =>
            have := hall k2 ty3 (by omega) (by simpa using hk2)
            rw [show idx + (k2 + 1) = idx + 1 + k2 from by omega]
            exact this
      · rintro ⟨k, ty2, hk, hj, herr, hall⟩
        cases k with
        | zero =>
          obtain rfl : ty = ty2 := by simpa using hk
          rw [Nat.add_zero, h] at herr
          exact absurd herr (by simp)
        | succ k =>
          refine ⟨k, ty2, by simpa using hk, by omega, ?_, ?_⟩
          · rw [show idx + 1 + k = idx + (k + 1) from by omega]; exact herr
          · intro k2 ty3 hlt hk2
            have := hall (k2 + 1) ty3 (by omega) (by simpa using hk2)
            rw [show idx + 1 + k2 = idx + (k2 + 1) from by omega]
            exact this

/-- Column loop from 0, success, in terms of single-cell checks. -/
theorem checkCols_zero_ok_iff (row1 : List Value) (fields schema : List String) :
    checkCols row1 fields schema 0 = .ok () ↔
      ∀ j, colCheckAt row1 fields schema j = .ok () := by
  rw [checkCols_ok_iff]
  constructor
  · intro hall j
    cases hty : schema[j]? with
    | none => simp [colCheckAt, hty]
    | some ty => simpa [colCheckAt, hty] using hall j ty hty
  · intro hall k ty hk
    have := hall k
    rw [Nat.zero_add]
    simpa [colCheckAt, hk] using this

/-- Column loop from 0, failure, in terms of single-cell checks. -/
theorem checkCols_zero_err_iff (row1 : List Value) (fields schema : List String)
    (j : ℕ) (e : ValErr) :
    checkCols row1 fields schema 0 = .error (j, e) ↔
      (colCheckAt row1 fields schema j = .error e ∧
       ∀ j2, j2 < j → colCheckAt row1 fields schema j2 = .ok ()) := by
  rw [checkCols_err_iff]
  constructor
  · rintro ⟨k, ty, hk, hj, herr, hall⟩
    subst hj
    rw [Nat.zero_add] at herr ⊢
    constructor
    · simpa [colCheckAt, hk] using herr
    · intro j2 hlt
      cases hty : schema[j2]? with
      | none => simp [colCheckAt, hty]
      | some ty2 =>
        have := hall j2 ty2 (by omega) hty
        rw [Nat.zero_add] at this
        simp [colCheckAt, hty, this]
  · rintro ⟨herr, hall⟩
    cases hty : schema[j]? with
    | none => simp [colCheckAt, hty] at herr
    | some ty =>
      have herr2 : checkValue ty row1 fields j = .error e := by
        simpa [colCheckAt, hty] using herr
      refine ⟨j, ty, hty, by omega, by simpa using herr2, ?_⟩
      intro k2 ty2 hlt hk2
      have := hall k2 (by omega)
      rw [Nat.zero_add]
      simpa [colCheckAt, hk2] using this

/-- The row loop fails with `err` iff some row is the first failing row and
its column loop produces `err`'s coordinates. -/
theorem checkRows_err_iff (schema : List String) :
    ∀ (df : List (List Value)) (lines : List String) (i0 : ℕ)
      (err : VerifyError),
      checkRows df lines schema i0 = .error err ↔
        ∃ k r l j e, err = .atValue (i0 + k) j e ∧
          df[k]? = some r ∧ lines[k]? = some l ∧
          checkCols r (fieldsOf l) schema 0 = .error (j, e) ∧
          ∀ k2 r2 l2, k2 < k → df[k2]? = some r2 → lines[k2]? = some l2 →
            checkCols r2 (fieldsOf l2) schema 0 = .ok () := by
  intro df
  induction df with
  | nil => intro lines i0 err; simp [checkRows]
  | cons row1 df ih =>
    intro lines i0 err
    cases lines with
    | nil => simp [checkRows]
    | cons line lines =>
      cases h : checkCols row1 (fieldsOf line) schema 0 with
      | error je =>
        obtain ⟨j0, e0⟩ := je
        simp only [checkRows, h]
        constructor
        · intro heq
          simp only [Except.error.injEq] at heq
          refine ⟨0, row1, line, j0, e0, ?_, by simp, by simp, h, ?_⟩
          · rw [Nat.add_zero, heq]
          · intro k2 r2 l2 hlt _ _; exact absurd hlt (Nat.not_lt_zero k2)
        · rintro ⟨k, r, l, j, e, herr, hr, hl, hcols, hall⟩
          cases k with
          | zero =>
            obtain rfl : row1 = r := by simpa using hr
            obtain rfl : line = l := by simpa using hl
            have hpair := h.symm.trans hcols
            simp only [Except.error.injEq, Prod.mk.injEq] at hpair
            obtain ⟨hj, he⟩ := hpair
            rw [herr, Nat.add_zero, hj, he]
          | succ k =>
            have h0 := hall 0 row1 line (Nat.succ_pos k) (by simp) (by simp)
            rw [h] at h0
            exact absurd h0 (by simp)
      | ok u =>
        cases u
        simp only [checkRows, h]
        rw [ih lines (i0 + 1) err]
        constructor
        · rintro ⟨k, r, l, j, e, herr, hr, hl, hcols, hall⟩
          refine ⟨k + 1, r, l, j, e,
            by rw [herr, show i0 + 1 + k = i0 + (k + 1) from by omega],
            by simpa using hr, by simpa using hl, hcols, ?_⟩
          intro k2 r2 l2 hlt hr2 hl2
          cases k2 with
          | zero =>
            obtain rfl : row1 = r2 := by simpa using hr2
            obtain rfl : line = l2 := by simpa using hl2
            exact h
          | succ k2 =>
            exact hall k2 r2 l2 (by omega) (by simpa using hr2)
              (by simpa using hl2)
        · rintro ⟨k, r, l, j, e, herr, hr, hl, hcols, hall⟩
          cases k with
          | zero =>
            obtain rfl : row1 = r := by simpa using hr
            obtain rfl : line = l := by simpa using hl
            exact absurd (h.symm.trans hcols) (by simp)
          | succ k =>
            refine ⟨k, r, l, j, e,
              by rw [herr, show i0 + (k + 1) = i0 + 1 + k from by omega],
              by simpa using hr, by simpa using hl, hcols, ?_⟩
            intro k2 r2 l2 hlt hr2 hl2
            exact hall (k2 + 1) r2 l2 (by omega) (by simpa using hr2)
              (by simpa using hl2)

/-- C10: verification fails at a value exactly when that value is the first
failing value in row-major order — `verify` reports row `i`, column `j`,
error `e` iff the row counts agree, the single-cell check at `(i, j)` fails
with `e`, and every cell strictly earlier in row-major order (any earlier
row, or the same row at an earlier column) checks out. In particular no
value after the first failing one can influence the outcome. -/
theorem verify_first_failure (df : List (List Value)) (schema : List String)
    (text : String) (i j : ℕ) (e : ValErr) :
    verify df schema text = .error (.atValue i j e) ↔
      (df.length = (splitlines text).length ∧
       cellCheck df (splitlines text) schema i j = .error e ∧
       ∀ i2 j2, (i2 < i ∨ (i2 = i ∧ j2 < j)) →
         cellCheck df (splitlines text) schema i2 j2 = .ok ()) := by
  unfold verify
  by_cases hlen : df.length = (splitlines text).length
  · rw [if_pos hlen,
      checkRows_err_iff schema df (splitlines text) 0 (.atValue i j e)]
    constructor
    · rintro ⟨k, r, l, j0, e0, heq, hr, hl, hcols, hall⟩
      simp only [VerifyError.atValue.injEq] at heq
      obtain ⟨hi, hj, he⟩ := heq
      rw [Nat.zero_add] at hi
      subst hi hj he
      rw [checkCols_zero_err_iff] at hcols
      refine ⟨hlen, ?_, ?_⟩
      · simp [cellCheck, hr, hl, hcols.1]
      · intro i2 j2 hord
        rcases hord with hlt | ⟨rfl, hlt⟩
        · cases hr2 : df[i2]? with
          | none => simp [cellCheck, hr2]
          | some r2 =>
            cases hl2 : (splitlines text)[i2]? with
            | none => simp [cellCheck, hr2, hl2]
            | some l2 =>
              have hok := hall i2 r2 l2 hlt hr2 hl2
              rw [checkCols_zero_ok_iff] at hok
              simp [cellCheck, hr2, hl2, hok j2]
        · simp [cellCheck, hr, hl, hcols.2 j2 hlt]
    · rintro ⟨hlen2, hcell, hall⟩
      cases hr : df[i]? with
      | none => simp [cellCheck, hr] at hcell
      | some r =>
        cases hl : (splitlines text)[i]? with
        | none => simp [cellCheck, hr, hl] at hcell
        | some l =>
          have hcol : colCheckAt r (fieldsOf l) schema j = .error e := by
            simpa [cellCheck, hr, hl] using hcell
          refine ⟨i, r, l, j, e, by rw [Nat.zero_add], hr, hl, ?_, ?_⟩
          · rw [checkCols_zero_err_iff]
            refine ⟨hcol, fun j2 hlt => ?_⟩
            have := hall i j2 (Or.inr ⟨rfl, hlt⟩)
            simpa [cellCheck, hr, hl] using this
          · intro k2 r2 l2 hlt hr2 hl2
            rw [checkCols_zero_ok_iff]
            intro j2
            have := hall k2 j2 (Or.inl hlt)
            simpa [cellCheck, hr2, hl2] using this
  · rw [if_neg hlen]
    simp [hlen]

/-- Witness for C10 at a concrete failing verification. -/
theorem verify_first_failure_witness :
    ([[Value.int 1], [Value.int 2]] : List (List Value)).length =
      (splitlines "1\n3").length ∧
    cellCheck [[Value.int 1], [Value.int 2]] (splitlines "1\n3") ["int"] 1 0 =
      .error (.valueMismatch (Value.int 3) (Value.int 2)) := by
  have h := (verify_first_failure [[Value.int 1], [Value.int 2]] ["int"]
    "1\n3" 1 0 (.valueMismatch (Value.int 3) (Value.int 2))).mp (by decide)
  exact ⟨h.1, h.2.1⟩

end Iceberg
